import Mathlib

/-!
Verification of the mongo-sync change-feed anonymization pipeline.

The development shallowly embeds the pipeline's pure core:

* `hashToken` — the deterministic 8-character token generator (MD5 digest of the
  UTF-8 bytes, read as an unsigned big integer via the big-endian hex string,
  expanded least-significant-digit first over a 62-character alphabet);
* `anonymizeCustomer` — the field-wise anonymizer, modelled with explicit
  state passing so that the aliasing of the input's nested `address` object
  into the output (and its in-place mutation) is observable: the function
  returns both the produced object and the post-call state of its input;
* `createUpdate` — the update-delta reconstructor (dotted-path keys merged
  into a nested `address` object, a bare `address` key marking a full group
  rewrite) followed by anonymization and re-expansion to dotted form;
* the sync-mode batching state machine — enqueue on change events, flush
  on timer fire or on the queue reaching the maximum batch size, checkpoint
  save after every non-empty flush.

JavaScript semantics that matter are embedded explicitly: string truthiness
(the empty string is falsy), `String.prototype.split` on a one-character
separator, object key enumeration in insertion order, and the stringification
of `undefined` inside a template literal.
-/

/-! ## JavaScript string primitives -/

/-- JS truthiness of an optional string member: absent (`undefined`) and the
empty string are falsy, every other string is truthy. -/
def truthy : Option String → Bool
  | none => false
  | some s => !s.isEmpty

/-- `String.prototype.split` with a one-character separator, over the
character list: splits at every occurrence, keeping empty segments, and
yields one (possibly empty) segment even for the empty input. -/
def splitChars (sep : Char) : List Char → List (List Char)
  | [] => [[]]
  | c :: cs =>
    let r := splitChars sep cs
    if c = sep then [] :: r
    else
      match r with
      | [] => [[c]]
      | h :: t => (c :: h) :: t

/-- `s.split(sep)` for a one-character separator, as a list of strings. -/
def jsSplit (sep : Char) (s : String) : List String :=
  (splitChars sep s.data).map String.mk

/-- Character-list version of `String.prototype.startsWith`. -/
def isPrefixChars : List Char → List Char → Bool
  | [], _ => true
  | _ :: _, [] => false
  | p :: ps, c :: cs => p = c && isPrefixChars ps cs

/-- `s.startsWith(pre)` of JavaScript. -/
def jsStartsWith (s pre : String) : Bool :=
  isPrefixChars pre.data s.data

/-! ## MD5 (the `crypto.createHash('md5')` call of `hashToken`)

Modelled from the MD5 standard (RFC 1321), which is what the Node `crypto`
library computes: 32-bit words are `Nat`s kept below `2 ^ 32` by explicit
masking. `md5Nat` returns the digest as the unsigned big integer the source
obtains with `BigInt('0x' + hex digest)`: the sixteen digest bytes read in
order as a big-endian number. -/

/-- The 64 sine-derived round constants of MD5. -/
def md5K : List Nat :=
  [3614090360, 3905402710, 606105819, 3250441966, 4118548399, 1200080426, 2821735955, 4249261313,
   1770035416, 2336552879, 4294925233, 2304563134, 1804603682, 4254626195, 2792965006, 1236535329,
   4129170786, 3225465664, 643717713, 3921069994, 3593408605, 38016083, 3634488961, 3889429448,
   568446438, 3275163606, 4107603335, 1163531501, 2850285829, 4243563512, 1735328473, 2368359562,
   4294588738, 2272392833, 1839030562, 4259657740, 2763975236, 1272893353, 4139469664, 3200236656,
   681279174, 3936430074, 3572445317, 76029189, 3654602809, 3873151461, 530742520, 3299628645,
   4096336452, 1126891415, 2878612391, 4237533241, 1700485571, 2399980690, 4293915773, 2240044497,
   1873313359, 4264355552, 2734768916, 1309151649, 4149444226, 3174756917, 718787259, 3951481745]

/-- The per-round left-rotation amounts of MD5. -/
def md5S : List Nat :=
  [7, 12, 17, 22, 7, 12, 17, 22, 7, 12, 17, 22, 7, 12, 17, 22,
   5, 9, 14, 20, 5, 9, 14, 20, 5, 9, 14, 20, 5, 9, 14, 20,
   4, 11, 16, 23, 4, 11, 16, 23, 4, 11, 16, 23, 4, 11, 16, 23,
   6, 10, 15, 21, 6, 10, 15, 21, 6, 10, 15, 21, 6, 10, 15, 21]

/-- Left rotation of a 32-bit word. -/
def rotl32 (x n : Nat) : Nat :=
  ((x <<< n) % 4294967296) ||| (x >>> (32 - n))

def md5F (b c d : Nat) : Nat := (b &&& c) ||| ((b ^^^ 4294967295) &&& d)

def md5G (b c d : Nat) : Nat := (d &&& b) ||| ((d ^^^ 4294967295) &&& c)

def md5H (b c d : Nat) : Nat := b ^^^ c ^^^ d

def md5I (b c d : Nat) : Nat := c ^^^ (b ||| (d ^^^ 4294967295))

/-- One MD5 round: `m` is the chunk's 16-word schedule, `i` the round index. -/
def md5Mix (m : List Nat) (st : Nat × Nat × Nat × Nat) (i : Nat) : Nat × Nat × Nat × Nat :=
  match st with
  | (a, b, c, d) =>
    let fg : Nat × Nat :=
      if i < 16 then (md5F b c d, i)
      else if i < 32 then (md5G b c d, (5 * i + 1) % 16)
      else if i < 48 then (md5H b c d, (3 * i + 5) % 16)
      else (md5I b c d, (7 * i) % 16)
    let f := (fg.1 + a + md5K.getD i 0 + m.getD fg.2 0) % 4294967296
    (d, (b + rotl32 f (md5S.getD i 0)) % 4294967296, b, c)

/-- One 64-byte chunk folded into the running MD5 state. -/
def md5Chunk (st : Nat × Nat × Nat × Nat) (chunk : List Nat) : Nat × Nat × Nat × Nat :=
  let m := (List.range 16).map (fun j =>
    chunk.getD (4 * j) 0 + 256 * chunk.getD (4 * j + 1) 0 +
      65536 * chunk.getD (4 * j + 2) 0 + 16777216 * chunk.getD (4 * j + 3) 0)
  match st, (List.range 64).foldl (md5Mix m) st with
  | (a0, b0, c0, d0), (a, b, c, d) =>
    ((a0 + a) % 4294967296, (b0 + b) % 4294967296, (c0 + c) % 4294967296, (d0 + d) % 4294967296)

/-- MD5 padding: a `0x80` byte, zeros up to 56 mod 64, then the bit length
as eight little-endian bytes. -/
def md5Pad (msg : List Nat) : List Nat :=
  msg ++ [128] ++ List.replicate ((119 - msg.length % 64) % 64) 0 ++
    (List.range 8).map (fun i => ((8 * msg.length) >>> (8 * i)) % 256)

/-- Fold the padded message 64 bytes at a time; the first argument counts the
chunks left, which keeps the recursion structural. -/
def md5Chunks : Nat → Nat × Nat × Nat × Nat → List Nat → Nat × Nat × Nat × Nat
  | 0, st, _ => st
  | k + 1, st, bytes => md5Chunks k (md5Chunk st (bytes.take 64)) (bytes.drop 64)

/-- The four bytes of a 32-bit word, least-significant first, reassembled as a
big-endian number: how one word appears inside the hex digest string. -/
def byteSwap32 (x : Nat) : Nat :=
  (x % 256) * 16777216 + ((x >>> 8) % 256) * 65536 + ((x >>> 16) % 256) * 256 + ((x >>> 24) % 256)

/-- The MD5 digest of a byte list, as the unsigned big integer
`BigInt('0x' + hexDigest)` of the source. -/
def md5Nat (msg : List Nat) : Nat :=
  let padded := md5Pad msg
  match md5Chunks (padded.length / 64) (1732584193, 4023233417, 2562383102, 271733878) padded with
  | (a, b, c, d) =>
    byteSwap32 a * 79228162514264337593543950336 + byteSwap32 b * 18446744073709551616 +
      byteSwap32 c * 4294967296 + byteSwap32 d

/-- UTF-8 encoding of one Unicode scalar value. -/
def utf8EncodeChar (c : Char) : List Nat :=
  let n := c.toNat
  if n < 128 then [n]
  else if n < 2048 then [192 + n / 64, 128 + n % 64]
  else if n < 65536 then [224 + n / 4096, 128 + (n / 64) % 64, 128 + n % 64]
  else [240 + n / 262144, 128 + (n / 4096) % 64, 128 + (n / 64) % 64, 128 + n % 64]

/-- UTF-8 encoding of a character list (what `crypto`'s `update` hashes). -/
def utf8Encode (cs : List Char) : List Nat :=
  (cs.map utf8EncodeChar).flatten

/-! ## The token generator `hashToken` -/

/-- The 62-character alphabet of the source, lowercase then uppercase then
digits. -/
def alphabet : String :=
  "abcdefghijklmnopqrstuvwxyzABCDEFGHIJKLMNOPQRSTUVWXYZ0123456789"

/-- The base-62 digit loop of `hashToken` (`while (bigint > 0n) { ... }`),
least-significant digit first; the first argument is fuel that keeps the
recursion structural, `toBase62` instantiates it so it never runs out. -/
def toBase62Aux : Nat → Nat → List Char
  | 0, _ => []
  | fuel + 1, n => if n = 0 then [] else alphabet.data.getD (n % 62) 'a' :: toBase62Aux fuel (n / 62)

/-- All base-62 digits of `n`, least-significant first (`n` itself bounds the
number of division steps, so it is sufficient fuel). -/
def toBase62 (n : Nat) : List Char :=
  toBase62Aux n n

/-- `hashToken` of the source: MD5 the UTF-8 bytes, read the digest as a big
integer, emit base-62 digits least-significant first, keep the first 8. -/
def hashToken (input : String) : String :=
  String.mk ((toBase62 (md5Nat (utf8Encode input.data))).take 8)

/-- Modelled from the spec: the digit sequence of §4.4's token algorithm,
"repeatedly take `value mod 62` as an index into the alphabet ... and set
`value = value div 62` ... until `value` reaches zero", written as literal
recursion until the value reaches zero. -/
def specDigits (n : Nat) : List Char :=
  if h : n = 0 then []
  else alphabet.data.getD (n % 62) 'a' :: specDigits (n / 62)
termination_by n
decreasing_by exact Nat.div_lt_self (Nat.pos_of_ne_zero h) (by decide)

/-- Modelled from the spec: §4.4's whole token algorithm — digest, digit
sequence, "take the first 8 characters of the resulting
least-significant-first sequence". -/
def tokenSpec (s : String) : String :=
  String.mk ((specDigits (md5Nat (utf8Encode s.data))).take 8)

/-! ### Facts about the token generator -/

theorem toBase62Aux_eq_specDigits : ∀ fuel n, n ≤ fuel → toBase62Aux fuel n = specDigits n := by
  intro fuel
  induction fuel with
  | zero =>
    intro n hn
    have h0 : n = 0 := Nat.le_zero.mp hn
    subst h0
    rw [specDigits]
    rfl
  | succ k ih =>
    intro n hn
    by_cases h : n = 0
    · subst h
      rw [specDigits]
      rfl
    · rw [specDigits]
      simp only [toBase62Aux, if_neg h, dif_neg h]
      have hdiv : n / 62 ≤ k := by
        have : n / 62 < n := Nat.div_lt_self (Nat.pos_of_ne_zero h) (by decide)
        omega
      rw [ih _ hdiv]

theorem toBase62_eq_specDigits (n : Nat) : toBase62 n = specDigits n :=
  toBase62Aux_eq_specDigits n n (Nat.le_refl n)

theorem mem_alphabet_of_mem_toBase62Aux {c : Char} :
    ∀ fuel n, c ∈ toBase62Aux fuel n → c ∈ alphabet.data := by
  intro fuel
  induction fuel with
  | zero => intro n h; simp [toBase62Aux] at h
  | succ k ih =>
    intro n h
    by_cases h0 : n = 0
    · subst h0; simp [toBase62Aux] at h
    · simp only [toBase62Aux, if_neg h0, List.mem_cons] at h
      rcases h with h | h
      · subst h
        have hlt : n % 62 < alphabet.data.length := by
          have : n % 62 < 62 := Nat.mod_lt _ (by decide)
          have hlen : alphabet.data.length = 62 := by decide
          omega
        rw [List.getD_eq_getElem _ _ hlt]
        exact List.getElem_mem hlt
      · exact ih _ h

theorem mem_alphabet_of_mem_hash {c : Char} {s : String} (h : c ∈ (hashToken s).data) :
    c ∈ alphabet.data := by
  have h' : c ∈ toBase62 (md5Nat (utf8Encode s.data)) := by
    have := List.take_subset 8 (toBase62 (md5Nat (utf8Encode s.data)))
    exact this h
  exact mem_alphabet_of_mem_toBase62Aux _ _ h'

/-- `hashToken` never returns its own input when that input holds a character
outside the alphabet. -/
theorem hash_ne_of_not_alpha {s : String} {c : Char} (hc : c ∈ s.data)
    (hna : c ∉ alphabet.data) : hashToken s ≠ s := by
  intro he
  exact hna (mem_alphabet_of_mem_hash (by rw [he]; exact hc))

/-! ## The customer data model

`Partial<Customer>` of the source: each scalar member is either absent
(`undefined`, here `none`) or a string. The nested `address` value is a
JavaScript object; because dotted update keys can introduce arbitrary nested
keys, it is modelled as an insertion-ordered association list with unique
keys — exactly a JS object's own string keys. -/

/-- A JavaScript object holding string values: insertion-ordered unique keys. -/
abbrev AddrObj := List (String × String)

/-- `o[k]` — property read. -/
def objGet (o : AddrObj) (k : String) : Option String :=
  (o.find? (fun p => p.1 = k)).map (fun p => p.2)

/-- `o[k] = v` — property write: overwrites in place when the key exists
(keeping its position, as JS does), appends otherwise. -/
def objSet (o : AddrObj) (k v : String) : AddrObj :=
  if o.any (fun p => p.1 = k) then o.map (fun p => if p.1 = k then (k, v) else p)
  else o ++ [(k, v)]

/-- `Partial<Customer>`, restricted to the members the pipeline reads. -/
structure Customer where
  firstName : Option String
  lastName : Option String
  email : Option String
  address : Option AddrObj
deriving DecidableEq, Repr

/-- The `for (const key of keys)` loop body of `anonymizeCustomer`: hash the
address member named `key` in place when it is truthy. -/
def hashAddrKey (a : AddrObj) (k : String) : AddrObj :=
  match objGet a k with
  | none => a
  | some v => if v.isEmpty then a else objSet a k (hashToken v)

/-- The in-place anonymization of the shared address object: `line1`, `line2`
and `postcode` are hashed when truthy, every other key is untouched. -/
def anonymizeAddr (a : AddrObj) : AddrObj :=
  ["line1", "line2", "postcode"].foldl hashAddrKey a

/-- `anonymizeCustomer` of the source, with explicit state passing for the
aliasing it performs: `anonymous.address = customer.address` copies the
object *reference*, and the loop then writes hashed values into that shared
object. The first component is the returned `anonymous` object; the second is
the state of the *input* after the call (its scalar members are immutable
strings, but its address object has been mutated through the alias). -/
def anonymizeCustomer (customer : Customer) : Customer × Customer :=
  let sharedAddr := customer.address.map anonymizeAddr
  (⟨(match customer.firstName with
     | none => none
     | some s => if s.isEmpty then none else some (hashToken s)),
    (match customer.lastName with
     | none => none
     | some s => if s.isEmpty then none else some (hashToken s)),
    (match customer.email with
     | none => none
     | some s =>
       if s.isEmpty then none
       else
         let emailParts := jsSplit '@' s
         some (hashToken (emailParts.headD "") ++ "@" ++
           ((emailParts.get? 1).getD "undefined"))),
    sharedAddr⟩,
   { customer with address := sharedAddr })

/-! ## The update reconstructor `createUpdate` -/

/-- A value inside an `updatedFields` delta: a string for scalar members and
dotted paths, an object for the bare `address` key (the source assumes a
valid `Customer` update, per its own comment). -/
inductive DVal where
  | dStr (s : String)
  | dObj (o : AddrObj)
deriving DecidableEq, Repr

/-- The string a delta value stands for where the code reads a string. -/
def DVal.asStr : DVal → String
  | .dStr s => s
  | .dObj _ => ""

/-- The object a delta value stands for where the code reads an object. -/
def DVal.asObj : DVal → AddrObj
  | .dObj o => o
  | .dStr _ => []

/-- An `updatedFields` delta: the object's own keys in enumeration
(= insertion) order. -/
abbrev Delta := List (String × DVal)

/-- One iteration of stage 1 of `createUpdate` (`for (const key in
updatedFields)`): dotted `address.*` keys are merged into the nested address
object being built, the bare `address` key overwrites that object wholesale
and raises the `rewriteFullAddress` flag, the known scalar keys are copied,
and any other key is stored but can never surface in the output (the
anonymizer drops it), so it is dropped here. -/
def reconstructStep (acc : Customer × Bool) (kv : String × DVal) : Customer × Bool :=
  let c := acc.1
  if jsStartsWith kv.1 "address." then
    let key2 := ((jsSplit '.' kv.1).get? 1).getD "undefined"
    ({ c with address := some (objSet (c.address.getD []) key2 kv.2.asStr) }, acc.2)
  else if kv.1 = "address" then
    ({ c with address := some kv.2.asObj }, true)
  else if kv.1 = "firstName" then ({ c with firstName := some kv.2.asStr }, acc.2)
  else if kv.1 = "lastName" then ({ c with lastName := some kv.2.asStr }, acc.2)
  else if kv.1 = "email" then ({ c with email := some kv.2.asStr }, acc.2)
  else acc

/-- Stage 1 of `createUpdate`: the reconstructed customer and the
`rewriteFullAddress` flag. -/
def reconstruct (updatedFields : Delta) : Customer × Bool :=
  updatedFields.foldl reconstructStep (⟨none, none, none, none⟩, false)

/-- A value inside a `$set` write document. -/
inductive WVal where
  | wStr (s : String)
  | wObj (o : AddrObj)
deriving DecidableEq, Repr

/-- A customer object serialized as its key/value pairs in insertion order
(the order `anonymizeCustomer` assigns them). -/
def customerPairs (c : Customer) : List (String × WVal) :=
  (match c.firstName with | none => [] | some s => [("firstName", WVal.wStr s)]) ++
  (match c.lastName with | none => [] | some s => [("lastName", WVal.wStr s)]) ++
  (match c.email with | none => [] | some s => [("email", WVal.wStr s)]) ++
  (match c.address with | none => [] | some o => [("address", WVal.wObj o)])

/-- `convertCustomerUpdateToDotNotation` of the source: scalar members are
copied, the address object is expanded to dotted `address.*` keys. -/
def convertCustomerUpdateToDotted (c : Customer) : List (String × WVal) :=
  (match c.firstName with | none => [] | some s => [("firstName", WVal.wStr s)]) ++
  (match c.lastName with | none => [] | some s => [("lastName", WVal.wStr s)]) ++
  (match c.email with | none => [] | some s => [("email", WVal.wStr s)]) ++
  (match c.address with
   | none => []
   | some o => o.map (fun p => ("address." ++ p.1, WVal.wStr p.2)))

/-- `createUpdate` of the source, with its internal `rewriteFullAddress` flag
exposed as the second component: reconstruct, anonymize, then either pass the
anonymized object through as-is (full address rewrite) or expand it to dotted
notation. -/
def createUpdateFull (updatedFields : Delta) : List (String × WVal) × Bool :=
  let rc := reconstruct updatedFields
  let anonym := (anonymizeCustomer rc.1).1
  ((if rc.2 then customerPairs anonym else convertCustomerUpdateToDotted anonym), rc.2)

/-- The update document `createUpdate` returns. -/
def createUpdate (updatedFields : Delta) : List (String × WVal) :=
  (createUpdateFull updatedFields).1

/-! ## Sync mode: pending queue, flush, checkpoint

The runtime is single-threaded and cooperative (§5 of the design): the change
callback, the timer callback and the flush body never run concurrently; the
`await`ed bulk write and checkpoint save are the only suspension points. A
flush is therefore a function of the queue at its start plus the events that
arrive while its writes are in flight. -/

/-- One element of the `updates` array of `syncMode`. -/
structure PendingUpdate where
  _id : Nat
  update : List (String × WVal)
  resumeToken : Nat
deriving DecidableEq, Repr

/-- One operation of the bulk write: `updateOne` with an `_id` filter, a
`$set` document and `upsert: true`. -/
structure BulkOp where
  filterId : Nat
  set : List (String × WVal)
  upsert : Bool
deriving DecidableEq, Repr

/-- The mapping from a pending update to its bulk-write operation. -/
def toOp (u : PendingUpdate) : BulkOp :=
  ⟨u._id, u.update, true⟩

/-- A change-stream event as `syncMode` consumes it. An update event carries
the optional `updatedFields` member and the `removedFields` markers (which the
handler never reads); `other` stands for any other operation type. -/
inductive ChangeEvent where
  | insert (id : Nat) (fullDocument : Customer) (token : Nat)
  | update (id : Nat) (updatedFields : Option Delta) (removedFields : List String) (token : Nat)
  | other (token : Nat)
deriving DecidableEq, Repr

/-- The observable state of `syncMode`: the pending queue, the history of
bulk writes issued (each a snapshot of the queue at flush time), the
checkpoint tokens saved (most recent last), the number of `clearTimeout`
calls, of malformed-update warnings, and of logged bulk-write errors. -/
structure SyncState where
  updates : List PendingUpdate
  flushed : List (List BulkOp)
  checkpoints : List Nat
  timerCancels : Nat
  warnings : Nat
  bulkErrors : Nat
deriving DecidableEq, Repr

/-- `bulkWriteUpdates` with the events that arrive during its awaited writes
made explicit: if the queue is empty it returns at once (no write, no
checkpoint); otherwise it synchronously snapshots the queue, remembers the
last element's resume token and clears the queue, so `arrivals` land on the
emptied queue; the bulk write's rejection (`ok = false`) is caught and
logged; the checkpoint is saved afterwards in either case. -/
def flushWithArrivals (s : SyncState) (arrivals : List PendingUpdate) (ok : Bool) : SyncState :=
  match s.updates.getLast? with
  | none => { s with updates := s.updates ++ arrivals }
  | some last =>
    { s with
      updates := arrivals,
      flushed := s.flushed ++ [s.updates.map toOp],
      checkpoints := s.checkpoints ++ [last.resumeToken],
      bulkErrors := s.bulkErrors + (if ok then 0 else 1) }

/-- `bulkWriteUpdates` when no event interleaves with the flush. -/
def bulkWriteUpdates (s : SyncState) (ok : Bool) : SyncState :=
  flushWithArrivals s [] ok

/-- The flush-timer callback: run `bulkWriteUpdates`, then reschedule. -/
def timerFire (s : SyncState) (ok : Bool) : SyncState :=
  bulkWriteUpdates s ok

/-- The pending update an event enqueues, if any: an insert event enqueues
the anonymized full document as-is (nested form); an update event with a
present `updatedFields` enqueues `createUpdate` of it; everything else
enqueues nothing. -/
def eventPending : ChangeEvent → Option PendingUpdate
  | .insert id doc token => some ⟨id, customerPairs (anonymizeCustomer doc).1, token⟩
  | .update id (some d) _ token => some ⟨id, createUpdate d, token⟩
  | .update _ none _ _ => none
  | .other _ => none

/-- The `change` handler of `syncMode`. An update event without
`updatedFields` logs an error and returns early (before the batch-size
check). Otherwise the event's pending update (if any) is enqueued and, when
the queue has reached `maxBatchSize`, the timer is cancelled and
`bulkWriteUpdates` runs at once (its synchronous prefix snapshots and clears
the queue; `ok` is the fate of its bulk write). -/
def handleChange (maxBatchSize : Nat) (s : SyncState) (e : ChangeEvent) (ok : Bool) : SyncState :=
  match e with
  | .update _ none _ _ => { s with warnings := s.warnings + 1 }
  | _ =>
    let s1 :=
      match eventPending e with
      | none => s
      | some u => { s with updates := s.updates ++ [u] }
    if maxBatchSize ≤ s1.updates.length then
      bulkWriteUpdates { s1 with timerCancels := s1.timerCancels + 1 } ok
    else s1

/-! ## Helper lemmas -/

theorem splitChars_of_not_mem {sep : Char} : ∀ {l : List Char}, sep ∉ l → splitChars sep l = [l] := by
  intro l
  induction l with
  | nil => intro _; rfl
  | cons c cs ih =>
    intro h
    have hc : c ≠ sep := fun he => h (he ▸ List.mem_cons_self c cs)
    have hcs : sep ∉ cs := fun hm => h (List.mem_cons_of_mem c hm)
    simp only [splitChars, if_neg hc, ih hcs]

theorem splitChars_append {sep : Char} :
    ∀ {l₁ : List Char} (l₂ : List Char), sep ∉ l₁ →
      splitChars sep (l₁ ++ sep :: l₂) = l₁ :: splitChars sep l₂ := by
  intro l₁
  induction l₁ with
  | nil =>
    intro l₂ _
    simp [splitChars]
  | cons c cs ih =>
    intro l₂ h
    have hc : c ≠ sep := fun he => h (he ▸ List.mem_cons_self c cs)
    have hcs : sep ∉ cs := fun hm => h (List.mem_cons_of_mem c hm)
    simp only [List.cons_append, splitChars, if_neg hc, List.append_eq]
    rw [ih l₂ hcs]

theorem jsSplit_pair {a b : String} (ha : '@' ∉ a.data) (hb : '@' ∉ b.data) :
    jsSplit '@' (a ++ "@" ++ b) = [a, b] := by
  have hdata : (a ++ "@" ++ b).data = a.data ++ '@' :: b.data := by
    rw [String.data_append, String.data_append]
    have hat : "@".data = ['@'] := rfl
    rw [hat, List.append_assoc]
    rfl
  unfold jsSplit
  rw [hdata, splitChars_append _ ha, splitChars_of_not_mem hb]
  simp

theorem jsSplit_singleton {s : String} (h : '@' ∉ s.data) : jsSplit '@' s = [s] := by
  unfold jsSplit
  rw [splitChars_of_not_mem h]
  simp

theorem isPrefixChars_append : ∀ (p r : List Char), isPrefixChars p (p ++ r) = true := by
  intro p r
  induction p with
  | nil => rfl
  | cons c cs ih => simp [isPrefixChars, ih]

theorem string_append_assoc (a b c : String) : a ++ b ++ c = a ++ (b ++ c) := by
  cases a; cases b; cases c
  show String.mk _ = String.mk _
  simp [String.append]

theorem mem_of_getLast?_eq {α : Type} : ∀ {l : List α} {a : α}, l.getLast? = some a → a ∈ l := by
  intro l
  induction l with
  | nil => intro a h; simp at h
  | cons x xs ih =>
    intro a h
    cases xs with
    | nil =>
      simp [List.getLast?] at h
      simp [h]
    | cons y ys =>
      rw [List.getLast?_cons_cons] at h
      exact List.mem_cons_of_mem x (ih h)

theorem isEmpty_false_of_ne {s : String} (h : s ≠ "") : s.isEmpty = false := by
  cases he : s.isEmpty
  · rfl
  · exact absurd ((String.isEmpty_iff s).mp he) h

theorem append_at_ne_empty (a b : String) : (a ++ "@" ++ b) ≠ "" := by
  intro h
  have hd : (a ++ "@" ++ b).data = a.data ++ "@".data ++ b.data := by
    rw [String.data_append, String.data_append]
  rw [h] at hd
  have : ("" : String).data = [] := rfl
  rw [this] at hd
  have hat : "@".data = ['@'] := rfl
  rw [hat] at hd
  exact absurd hd.symm (by simp)

theorem hash_no_at {s : String} : '@' ∉ (hashToken s).data := by
  intro h
  have := mem_alphabet_of_mem_hash h
  revert this
  decide

/-! ## The claims -/

/-- C1: for every input string, the token equals the spec's algorithm — MD5
digest of the UTF-8 bytes read as an unsigned big integer, base-62 digits
least-significant first over the alphabet `[a-z][A-Z][0-9]`, first 8
characters (`hashToken s = tokenSpec s`; determinism is immediate since
`hashToken` is a function of `s` alone); every character of the token lies in
the alphabet; and the token is shorter than 8 characters exactly when the
digit sequence runs out in fewer than 8 steps (its length is the minimum of 8
and the digit-sequence length). -/
theorem c1_token_algorithm (s : String) :
    hashToken s = tokenSpec s ∧
    (hashToken s).data ⊆ alphabet.data ∧
    (hashToken s).length = min 8 (specDigits (md5Nat (utf8Encode s.data))).length := by
  refine ⟨?_, ?_, ?_⟩
  · unfold hashToken tokenSpec
    rw [toBase62_eq_specDigits]
  · intro c hc
    exact mem_alphabet_of_mem_hash hc
  · show (String.mk ((toBase62 (md5Nat (utf8Encode s.data))).take 8)).length = _
    rw [toBase62_eq_specDigits]
    show ((specDigits (md5Nat (utf8Encode s.data))).take 8).length = _
    rw [List.length_take]

/-- C5 (the code, not the claim): `anonymizeCustomer` is not stateless — at
the concrete record `{address: {line1: "!"}}` the input is mutated: its
post-call state differs from its pre-call state, its `address.line1` now
holds the token, and the returned object's address *is* the input's (the
`anonymous.address = customer.address` aliasing). -/
theorem c5_anonymizer_mutates_input :
    (anonymizeCustomer ⟨none, none, none, some [("line1", "!")]⟩).2
      ≠ (⟨none, none, none, some [("line1", "!")]⟩ : Customer) ∧
    (anonymizeCustomer ⟨none, none, none, some [("line1", "!")]⟩).2.address
      = some [("line1", hashToken "!")] ∧
    (anonymizeCustomer ⟨none, none, none, some [("line1", "!")]⟩).1.address
      = (anonymizeCustomer ⟨none, none, none, some [("line1", "!")]⟩).2.address := by
  refine ⟨?_, rfl, rfl⟩
  intro h
  have ha := congrArg Customer.address h
  have hb : (anonymizeCustomer ⟨none, none, none, some [("line1", "!")]⟩).2.address
      = some [("line1", hashToken "!")] := rfl
  rw [hb] at ha
  have hv : hashToken "!" = "!" := by
    simp only [Option.some.injEq, List.cons.injEq, Prod.mk.injEq] at ha
    exact ha.1.2
  exact hash_ne_of_not_alpha (c := '!') (by decide) (by decide) hv

/-- C6 (amended): a member of the output is present exactly when the
corresponding input member is *truthy* — present with a non-empty string for
`firstName`/`lastName`/`email` (JS `if (customer.x)`), merely present for the
`address` object (objects are always truthy). -/
theorem c6_presence_amended (c : Customer) :
    (anonymizeCustomer c).1.firstName.isSome = truthy c.firstName ∧
    (anonymizeCustomer c).1.lastName.isSome = truthy c.lastName ∧
    (anonymizeCustomer c).1.email.isSome = truthy c.email ∧
    (anonymizeCustomer c).1.address.isSome = c.address.isSome := by
  obtain ⟨f, l, e, a⟩ := c
  refine ⟨?_, ?_, ?_, ?_⟩
  · cases f with
    | none => rfl
    | some s =>
      by_cases hs : s.isEmpty <;> simp [anonymizeCustomer, truthy, hs]
  · cases l with
    | none => rfl
    | some s =>
      by_cases hs : s.isEmpty <;> simp [anonymizeCustomer, truthy, hs]
  · cases e with
    | none => rfl
    | some s =>
      by_cases hs : s.isEmpty <;> simp [anonymizeCustomer, truthy, hs]
  · cases a with
    | none => rfl
    | some o => simp [anonymizeCustomer]

/-- C6 counterexample: the claim "a member appears in the output iff it is
present in the input" fails at the record `{email: ""}` — the email member is
present in the input (the empty string) yet absent from the output. -/
theorem c6_presence_counterexample :
    ¬ ((anonymizeCustomer ⟨none, none, some "", none⟩).1.email.isSome
        ↔ (⟨none, none, some "", none⟩ : Customer).email.isSome) := by
  decide

/-- C7: for an email of the form `local@domain` with exactly one `@` (neither
part contains `@`), the anonymized email is the token of the local part, an
`@`, and the domain verbatim; in particular the segment after the output's
(unique) `@` is exactly the domain. -/
theorem c7_email_domain (c : Customer) (localPart domainPart : String)
    (hl : '@' ∉ localPart.data) (hd : '@' ∉ domainPart.data)
    (he : c.email = some (localPart ++ "@" ++ domainPart)) :
    (anonymizeCustomer c).1.email = some (hashToken localPart ++ "@" ++ domainPart) ∧
    (jsSplit '@' (hashToken localPart ++ "@" ++ domainPart)).get? 1 = some domainPart := by
  have hsplit : jsSplit '@' (localPart ++ "@" ++ domainPart) = [localPart, domainPart] :=
    jsSplit_pair hl hd
  constructor
  · have hne : (localPart ++ "@" ++ domainPart).isEmpty = false :=
      isEmpty_false_of_ne (append_at_ne_empty localPart domainPart)
    simp only [anonymizeCustomer, he, hne, Bool.false_eq_true, if_false, hsplit]
    rfl
  · rw [jsSplit_pair hash_no_at hd]
    rfl

/-- C10: for a non-empty email with no `@` at all, `split('@')` yields a
single part, the destructured second part is `undefined`, and the template
literal stringifies it: the output email is the token of the whole input
followed by the literal text `@undefined`. -/
theorem c10_undefined_domain (c : Customer) (s : String)
    (hne : s ≠ "") (hno : '@' ∉ s.data) (he : c.email = some s) :
    (anonymizeCustomer c).1.email = some (hashToken s ++ "@undefined") := by
  have hsplit : jsSplit '@' s = [s] := jsSplit_singleton hno
  have hemp : s.isEmpty = false := isEmpty_false_of_ne hne
  simp only [anonymizeCustomer, he, hemp, Bool.false_eq_true, if_false, hsplit]
  have h2 : ("@" : String) ++ "undefined" = "@undefined" := rfl
  have : hashToken s ++ "@" ++ "undefined" = hashToken s ++ "@undefined" := by
    rw [string_append_assoc, h2]
  rw [← this]
  rfl

/-- Delta entries whose key is neither the bare `address` nor a dotted
`address.*` path leave both the reconstructed address and the
`rewriteFullAddress` flag untouched. -/
theorem reconstruct_fold_preserve :
    ∀ (d : Delta) (acc : Customer × Bool),
      (∀ kv ∈ d, kv.1 ≠ "address" ∧ jsStartsWith kv.1 "address." = false) →
      (d.foldl reconstructStep acc).1.address = acc.1.address ∧
      (d.foldl reconstructStep acc).2 = acc.2 := by
  intro d
  induction d with
  | nil => intro acc _; exact ⟨rfl, rfl⟩
  | cons kv rest ih =>
    intro acc h
    have hkv := h kv (List.mem_cons_self kv rest)
    have hrest : ∀ kv ∈ rest, kv.1 ≠ "address" ∧ jsStartsWith kv.1 "address." = false :=
      fun x hx => h x (List.mem_cons_of_mem kv hx)
    have hstep : (reconstructStep acc kv).1.address = acc.1.address ∧
        (reconstructStep acc kv).2 = acc.2 := by
      unfold reconstructStep
      rw [hkv.2]
      simp only [Bool.false_eq_true, if_false, if_neg hkv.1]
      by_cases h1 : kv.1 = "firstName" <;> by_cases h2 : kv.1 = "lastName" <;>
        by_cases h3 : kv.1 = "email" <;> simp [h1, h2, h3]
    have := ih (reconstructStep acc kv) hrest
    rw [List.foldl_cons]
    exact ⟨this.1.trans hstep.1, this.2.trans hstep.2⟩

/-- C3 (amended): a delta containing the bare key `address` always sets
`rewriteFullAddress` and makes the write the anonymized object in nested
(whole-object) form; and when the bare entry is enumerated *after* every
dotted `address.*` entry, its value is taken as the complete address object,
overriding any partial merging that preceded it. (Dotted entries enumerated
after the bare one merge into that object instead — see the counterexample.) -/
theorem c3_full_replace_amended (d1 d2 : Delta) (o : AddrObj)
    (h2 : ∀ kv ∈ d2, kv.1 ≠ "address" ∧ jsStartsWith kv.1 "address." = false) :
    (reconstruct (d1 ++ ("address", DVal.dObj o) :: d2)).2 = true ∧
    (reconstruct (d1 ++ ("address", DVal.dObj o) :: d2)).1.address = some o ∧
    createUpdateFull (d1 ++ ("address", DVal.dObj o) :: d2)
      = (customerPairs
          (anonymizeCustomer (reconstruct (d1 ++ ("address", DVal.dObj o) :: d2)).1).1,
         true) := by
  have hbare : ∀ acc : Customer × Bool,
      reconstructStep acc ("address", DVal.dObj o) = ({ acc.1 with address := some o }, true) := by
    intro acc
    unfold reconstructStep
    have : jsStartsWith "address" "address." = false := by decide
    rw [this]
    simp [DVal.asObj]
  have hfold : reconstruct (d1 ++ ("address", DVal.dObj o) :: d2)
      = (d2.foldl reconstructStep
          (reconstructStep (d1.foldl reconstructStep (⟨none, none, none, none⟩, false))
            ("address", DVal.dObj o))) := by
    unfold reconstruct
    rw [List.foldl_append, List.foldl_cons]
  have hmid := hbare (d1.foldl reconstructStep (⟨none, none, none, none⟩, false))
  have hpres := reconstruct_fold_preserve d2
    (reconstructStep (d1.foldl reconstructStep (⟨none, none, none, none⟩, false))
      ("address", DVal.dObj o)) h2
  have hflag : (reconstruct (d1 ++ ("address", DVal.dObj o) :: d2)).2 = true := by
    rw [hfold]
    rw [hpres.2, hmid]
  have haddr : (reconstruct (d1 ++ ("address", DVal.dObj o) :: d2)).1.address = some o := by
    rw [hfold]
    rw [hpres.1, hmid]
  refine ⟨hflag, haddr, ?_⟩
  simp only [createUpdateFull, hflag, if_true]

/-- C3 counterexample: in the delta
`{address: {line2: "b"}, "address.line1": "a"}` (bare key enumerated first)
the dotted key merges into the bare object, so the write's address object
holds both `line2` and `line1` — the bare value `{line2: "b"}` was *not*
taken as the complete address object, contradicting "overriding any partial
merging ... regardless of the order in which the delta's keys are
enumerated"; had it been, the write would have been the anonymization of the
bare value alone. -/
theorem c3_order_counterexample :
    (createUpdateFull [("address", DVal.dObj [("line2", "b")]), ("address.line1", DVal.dStr "a")]).2
      = true ∧
    (createUpdateFull [("address", DVal.dObj [("line2", "b")]), ("address.line1", DVal.dStr "a")]).1
      = [("address", WVal.wObj [("line2", hashToken "b"), ("line1", hashToken "a")])] ∧
    (createUpdateFull [("address", DVal.dObj [("line2", "b")]), ("address.line1", DVal.dStr "a")]).1
      ≠ [("address", WVal.wObj (anonymizeAddr [("line2", "b")]))] := by
  refine ⟨rfl, rfl, ?_⟩
  intro h
  have h1 : (createUpdateFull
      [("address", DVal.dObj [("line2", "b")]), ("address.line1", DVal.dStr "a")]).1
      = [("address", WVal.wObj [("line2", hashToken "b"), ("line1", hashToken "a")])] := rfl
  have h2 : anonymizeAddr [("line2", "b")] = [("line2", hashToken "b")] := rfl
  rw [h1, h2] at h
  simp only [List.cons.injEq, Prod.mk.injEq, WVal.wObj.injEq, and_true, true_and] at h
  exact List.cons_ne_nil _ _ h

theorem startsWith_address_dot (f : String) :
    jsStartsWith ("address." ++ f) "address." = true := by
  unfold jsStartsWith
  rw [String.data_append]
  exact isPrefixChars_append _ _

theorem jsSplit_dot_pair {f : String} (hf : '.' ∉ f.data) :
    jsSplit '.' ("address." ++ f) = ["address", f] := by
  have hdata : ("address." ++ f).data = "address".data ++ '.' :: f.data := by
    rw [String.data_append]
    have h1 : "address.".data = "address".data ++ ['.'] := rfl
    rw [h1, List.append_assoc]
    rfl
  have hna : '.' ∉ "address".data := by decide
  unfold jsSplit
  rw [hdata, splitChars_append _ hna, splitChars_of_not_mem hf]
  simp

/-- C4 (amended): the nested delta `{address: {f: v}}` and the dotted delta
`{"address.f": v}` reconstruct to the *same* canonical customer (the same
address content, anonymized identically), but they do not produce identical
writes: the nested form sets `rewriteFullAddress = true` and writes the whole
anonymized address object under the key `address`, while the dotted form
leaves the flag false and writes dotted `address.*` keys. -/
theorem c4_reconstruction_amended (f v : String) (hf : '.' ∉ f.data) :
    (reconstruct [("address", DVal.dObj [(f, v)])]).1
      = (reconstruct [("address." ++ f, DVal.dStr v)]).1 ∧
    reconstruct [("address", DVal.dObj [(f, v)])]
      = (⟨none, none, none, some [(f, v)]⟩, true) ∧
    reconstruct [("address." ++ f, DVal.dStr v)]
      = (⟨none, none, none, some [(f, v)]⟩, false) ∧
    createUpdateFull [("address", DVal.dObj [(f, v)])]
      = ([("address", WVal.wObj (anonymizeAddr [(f, v)]))], true) ∧
    createUpdateFull [("address." ++ f, DVal.dStr v)]
      = ((anonymizeAddr [(f, v)]).map (fun p => ("address." ++ p.1, WVal.wStr p.2)), false) := by
  have hn : reconstruct [("address", DVal.dObj [(f, v)])]
      = (⟨none, none, none, some [(f, v)]⟩, true) := rfl
  have hd : reconstruct [("address." ++ f, DVal.dStr v)]
      = (⟨none, none, none, some [(f, v)]⟩, false) := by
    unfold reconstruct
    rw [List.foldl_cons, List.foldl_nil]
    unfold reconstructStep
    rw [startsWith_address_dot]
    simp [jsSplit_dot_pair hf, objSet, DVal.asStr]
  refine ⟨by rw [hn, hd], hn, hd, ?_, ?_⟩
  · simp only [createUpdateFull, hn]
    rfl
  · simp only [createUpdateFull, hd]
    rfl

/-- C4 counterexample: at `f = line1`, `v = "x"` the two delta forms do not
reconstruct to identical outputs with `fullGroupReplace = false` in both
cases — the nested form raises the flag and the two writes differ in their
keys. -/
theorem c4_forms_counterexample :
    (createUpdateFull [("address", DVal.dObj [("line1", "x")])]).2 = true ∧
    (createUpdateFull [("address.line1", DVal.dStr "x")]).2 = false ∧
    createUpdate [("address", DVal.dObj [("line1", "x")])]
      ≠ createUpdate [("address.line1", DVal.dStr "x")] := by
  refine ⟨rfl, rfl, ?_⟩
  intro h
  have h1 : createUpdate [("address", DVal.dObj [("line1", "x")])]
      = [("address", WVal.wObj [("line1", hashToken "x")])] := rfl
  have h2 : createUpdate [("address.line1", DVal.dStr "x")]
      = [("address.line1", WVal.wStr (hashToken "x"))] := rfl
  rw [h1, h2] at h
  simp only [List.cons.injEq, Prod.mk.injEq] at h
  exact absurd h.1.1 (by decide)

/-- C2: for a non-empty flush snapshot (`last` is the snapshot's final
pending update), the checkpoint saved at the end of the flush is exactly
`last`'s resume token — a token of the snapshot, never of an event that
arrived during the flush — and it is saved whether the bulk write succeeded
or failed (`ok` is arbitrary, and the saved checkpoints coincide for both
outcomes); a failed bulk write is logged, and the snapshotted batch is
written once and dropped: the queue afterwards holds only the arrivals. -/
theorem c2_flush_checkpoint (s : SyncState) (arrivals : List PendingUpdate) (ok : Bool)
    (last : PendingUpdate) (h : s.updates.getLast? = some last) :
    (flushWithArrivals s arrivals ok).checkpoints = s.checkpoints ++ [last.resumeToken] ∧
    last ∈ s.updates ∧
    (flushWithArrivals s arrivals ok).flushed = s.flushed ++ [s.updates.map toOp] ∧
    (flushWithArrivals s arrivals ok).updates = arrivals ∧
    (flushWithArrivals s arrivals ok).bulkErrors = s.bulkErrors + (if ok then 0 else 1) ∧
    (flushWithArrivals s arrivals true).checkpoints
      = (flushWithArrivals s arrivals false).checkpoints := by
  unfold flushWithArrivals
  rw [h]
  exact ⟨rfl, mem_of_getLast?_eq h, rfl, rfl, rfl, rfl⟩

/-- C2 witness: a concrete one-element snapshot with one arrival and a failed
bulk write. -/
theorem c2_flush_checkpoint_witness :
    (flushWithArrivals ⟨[⟨1, [], 5⟩], [], [], 0, 0, 0⟩ [⟨2, [], 6⟩] false).checkpoints
      = [] ++ [(⟨1, [], 5⟩ : PendingUpdate).resumeToken] ∧
    (⟨1, [], 5⟩ : PendingUpdate) ∈ [(⟨1, [], 5⟩ : PendingUpdate)] ∧
    (flushWithArrivals ⟨[⟨1, [], 5⟩], [], [], 0, 0, 0⟩ [⟨2, [], 6⟩] false).flushed
      = [] ++ [[(⟨1, [], 5⟩ : PendingUpdate)].map toOp] ∧
    (flushWithArrivals ⟨[⟨1, [], 5⟩], [], [], 0, 0, 0⟩ [⟨2, [], 6⟩] false).updates
      = [⟨2, [], 6⟩] ∧
    (flushWithArrivals ⟨[⟨1, [], 5⟩], [], [], 0, 0, 0⟩ [⟨2, [], 6⟩] false).bulkErrors
      = 0 + (if false then 0 else 1) ∧
    (flushWithArrivals ⟨[⟨1, [], 5⟩], [], [], 0, 0, 0⟩ [⟨2, [], 6⟩] true).checkpoints
      = (flushWithArrivals ⟨[⟨1, [], 5⟩], [], [], 0, 0, 0⟩ [⟨2, [], 6⟩] false).checkpoints :=
  c2_flush_checkpoint ⟨[⟨1, [], 5⟩], [], [], 0, 0, 0⟩ [⟨2, [], 6⟩] false ⟨1, [], 5⟩ rfl

/-- C8 (amended): an update event is dropped with a logged warning exactly
when its `updatedFields` member is absent (JS-falsy) — the `removedFields`
markers play no role; an update event whose delta is *present*, even as the
empty object (no usable field updates), is enqueued as a pending update with
an empty field-set, not dropped. -/
theorem c8_malformed_amended (maxB : Nat) (s : SyncState) (id tok : Nat)
    (rm : List String) (ok : Bool) (d : Delta) (h : s.updates.length + 1 < maxB) :
    handleChange maxB s (.update id none rm tok) ok = { s with warnings := s.warnings + 1 } ∧
    handleChange maxB s (.update id (some d) rm tok) ok
      = { s with updates := s.updates ++ [⟨id, createUpdate d, tok⟩] } := by
  refine ⟨rfl, ?_⟩
  unfold handleChange
  simp only [eventPending]
  rw [if_neg (by simp; omega)]

/-- C8 witness: at a concrete state, the malformed event is dropped with a
warning and the empty-delta event is enqueued. -/
theorem c8_malformed_amended_witness :
    handleChange 1000 ⟨[], [], [], 0, 0, 0⟩ (.update 7 none ["firstName"] 9) true
      = { (⟨[], [], [], 0, 0, 0⟩ : SyncState) with warnings := 0 + 1 } ∧
    handleChange 1000 ⟨[], [], [], 0, 0, 0⟩ (.update 7 (some []) ["firstName"] 9) true
      = { (⟨[], [], [], 0, 0, 0⟩ : SyncState) with
          updates := [] ++ [⟨7, createUpdate [], 9⟩] } :=
  c8_malformed_amended 1000 ⟨[], [], [], 0, 0, 0⟩ 7 9 ["firstName"] true [] (by decide)

/-- C8 counterexample: an update event whose delta is the empty object,
carrying only removed-field markers — no usable field updates — is *not*
dropped: it enqueues a pending update (with an empty field-set) and logs no
warning. -/
theorem c8_empty_delta_counterexample :
    (handleChange 1000 ⟨[], [], [], 0, 0, 0⟩ (.update 1 (some []) ["firstName"] 42) true).updates
      = [⟨1, [], 42⟩] ∧
    (handleChange 1000 ⟨[], [], [], 0, 0, 0⟩ (.update 1 (some []) ["firstName"] 42) true).warnings
      = 0 ∧
    [(⟨1, [], 42⟩ : PendingUpdate)] ≠ [] := by
  exact ⟨rfl, rfl, by decide⟩

/-- Flushing a state whose queue ends in `u` snapshots the whole queue,
saves `u`'s token, and empties the queue. -/
theorem bulkWrite_concat (up : List PendingUpdate) (fl : List (List BulkOp))
    (cp : List Nat) (tc wa be : Nat) (u : PendingUpdate) (ok : Bool) :
    bulkWriteUpdates ⟨up ++ [u], fl, cp, tc, wa, be⟩ ok
      = ⟨[], fl ++ [(up ++ [u]).map toOp], cp ++ [u.resumeToken], tc, wa,
          be + (if ok then 0 else 1)⟩ := by
  unfold bulkWriteUpdates flushWithArrivals
  rw [List.getLast?_concat]
/-- C9: the two flush triggers behave as specified. (i) When the flush timer
fires with zero pending updates, the flush is a no-op: no write is issued, no
checkpoint is saved, the state is unchanged. (ii) When enqueuing an event
(`u` is its pending update) brings the queue to exactly the maximum batch
size, a flush is forced at once: the timer is cancelled, the snapshot
(containing `u` last) is written, its checkpoint saved, and the queue
emptied. (iii) Consequently a queue below the maximum stays below it across
any change event. -/
theorem c9_flush_triggers (maxB : Nat) (s1 s2 s3 : SyncState) (e2 e3 : ChangeEvent)
    (ok1 ok2 ok3 : Bool) (u : PendingUpdate)
    (hmax : 0 < maxB)
    (h1 : s1.updates = [])
    (hu : eventPending e2 = some u)
    (hfull : s2.updates.length + 1 = maxB)
    (hinv : s3.updates.length < maxB) :
    timerFire s1 ok1 = s1 ∧
    (handleChange maxB s2 e2 ok2).updates = [] ∧
    (handleChange maxB s2 e2 ok2).flushed = s2.flushed ++ [(s2.updates ++ [u]).map toOp] ∧
    (handleChange maxB s2 e2 ok2).checkpoints = s2.checkpoints ++ [u.resumeToken] ∧
    (handleChange maxB s2 e2 ok2).timerCancels = s2.timerCancels + 1 ∧
    (handleChange maxB s3 e3 ok3).updates.length < maxB := by
  have partA : timerFire s1 ok1 = s1 := by
    obtain ⟨up, fl, cp, tc, wa, be⟩ := s1
    simp only at h1
    subst h1
    rfl
  have partB : handleChange maxB s2 e2 ok2
      = ⟨[], s2.flushed ++ [(s2.updates ++ [u]).map toOp],
          s2.checkpoints ++ [u.resumeToken], s2.timerCancels + 1, s2.warnings,
          s2.bulkErrors + (if ok2 then 0 else 1)⟩ := by
    obtain ⟨up, fl, cp, tc, wa, be⟩ := s2
    simp only at hfull ⊢
    cases e2 with
    | insert id doc tok =>
      simp only [eventPending, Option.some.injEq] at hu
      subst hu
      have hcond : maxB ≤ (up ++
          [(⟨id, customerPairs (anonymizeCustomer doc).1, tok⟩ : PendingUpdate)]).length := by
        simp only [List.length_append, List.length_cons, List.length_nil]
        omega
      unfold handleChange
      simp only [eventPending]
      rw [if_pos hcond]
      exact bulkWrite_concat up fl cp (tc + 1) wa be _ ok2
    | update id uf rm tok =>
      cases uf with
      | none => simp [eventPending] at hu
      | some d =>
        simp only [eventPending, Option.some.injEq] at hu
        subst hu
        have hcond : maxB ≤ (up ++
            [(⟨id, createUpdate d, tok⟩ : PendingUpdate)]).length := by
          simp only [List.length_append, List.length_cons, List.length_nil]
          omega
        unfold handleChange
        simp only [eventPending]
        rw [if_pos hcond]
        exact bulkWrite_concat up fl cp (tc + 1) wa be _ ok2
    | other tok => simp [eventPending] at hu
  have partC : (handleChange maxB s3 e3 ok3).updates.length < maxB := by
    obtain ⟨up, fl, cp, tc, wa, be⟩ := s3
    simp only at hinv
    cases e3 with
    | insert id doc tok =>
      unfold handleChange
      simp only [eventPending]
      by_cases hc : maxB ≤ (up ++
          [(⟨id, customerPairs (anonymizeCustomer doc).1, tok⟩ : PendingUpdate)]).length
      · rw [if_pos hc]
        rw [bulkWrite_concat up fl cp (tc + 1) wa be _ ok3]
        simpa using hmax
      · rw [if_neg hc]
        simp only [List.length_append, List.length_cons, List.length_nil] at hc ⊢
        omega
    | update id uf rm tok =>
      cases uf with
      | none => exact hinv
      | some d =>
        unfold handleChange
        simp only [eventPending]
        by_cases hc : maxB ≤ (up ++
            [(⟨id, createUpdate d, tok⟩ : PendingUpdate)]).length
        · rw [if_pos hc]
          rw [bulkWrite_concat up fl cp (tc + 1) wa be _ ok3]
          simpa using hmax
        · rw [if_neg hc]
          simp only [List.length_append, List.length_cons, List.length_nil] at hc ⊢
          omega
    | other tok =>
      unfold handleChange
      simp only [eventPending]
      rw [if_neg (by omega)]
      exact hinv
  rw [partB]
  exact ⟨partA, rfl, rfl, rfl, rfl, partC⟩

/-- C9 witness: with maximum batch size 3 and two pending updates, a third
event forces a flush; an empty-queue timer fire is a no-op. -/
theorem c9_flush_triggers_witness :
    timerFire ⟨[], [], [], 0, 0, 0⟩ true = (⟨[], [], [], 0, 0, 0⟩ : SyncState) ∧
    (handleChange 3 ⟨[⟨1, [], 5⟩, ⟨2, [], 6⟩], [], [], 0, 0, 0⟩
        (.update 7 (some []) [] 99) true).updates = [] ∧
    (handleChange 3 ⟨[⟨1, [], 5⟩, ⟨2, [], 6⟩], [], [], 0, 0, 0⟩
        (.update 7 (some []) [] 99) true).flushed
      = [] ++ [([(⟨1, [], 5⟩ : PendingUpdate), ⟨2, [], 6⟩] ++
          [(⟨7, [], 99⟩ : PendingUpdate)]).map toOp] ∧
    (handleChange 3 ⟨[⟨1, [], 5⟩, ⟨2, [], 6⟩], [], [], 0, 0, 0⟩
        (.update 7 (some []) [] 99) true).checkpoints
      = [] ++ [(⟨7, [], 99⟩ : PendingUpdate).resumeToken] ∧
    (handleChange 3 ⟨[⟨1, [], 5⟩, ⟨2, [], 6⟩], [], [], 0, 0, 0⟩
        (.update 7 (some []) [] 99) true).timerCancels = 0 + 1 ∧
    (handleChange 3 ⟨[⟨1, [], 5⟩, ⟨2, [], 6⟩], [], [], 0, 0, 0⟩
        (.other 0) true).updates.length < 3 :=
  c9_flush_triggers 3 (⟨[], [], [], 0, 0, 0⟩ : SyncState)
    (⟨[⟨1, [], 5⟩, ⟨2, [], 6⟩], [], [], 0, 0, 0⟩ : SyncState)
    (⟨[⟨1, [], 5⟩, ⟨2, [], 6⟩], [], [], 0, 0, 0⟩ : SyncState)
    (.update 7 (some []) [] 99) (.other 0)
    true true true (⟨7, [], 99⟩ : PendingUpdate) (by decide) rfl rfl rfl (by decide)

/-- C3 witness: a concrete delta where the bare `address` entry follows the
only dotted entry and a scalar entry trails it. -/
theorem c3_full_replace_amended_witness :
    (reconstruct ([("address.line1", DVal.dStr "a")] ++
        ("address", DVal.dObj [("line2", "b")]) :: [("firstName", DVal.dStr "F")])).2 = true ∧
    (reconstruct ([("address.line1", DVal.dStr "a")] ++
        ("address", DVal.dObj [("line2", "b")]) :: [("firstName", DVal.dStr "F")])).1.address
      = some [("line2", "b")] ∧
    createUpdateFull ([("address.line1", DVal.dStr "a")] ++
        ("address", DVal.dObj [("line2", "b")]) :: [("firstName", DVal.dStr "F")])
      = (customerPairs
          (anonymizeCustomer (reconstruct ([("address.line1", DVal.dStr "a")] ++
            ("address", DVal.dObj [("line2", "b")]) :: [("firstName", DVal.dStr "F")])).1).1,
         true) :=
  c3_full_replace_amended [("address.line1", DVal.dStr "a")] [("firstName", DVal.dStr "F")]
    [("line2", "b")] (by decide)

/-- C4 witness: the two forms at `f = line1`, `v = "x"`. -/
theorem c4_reconstruction_amended_witness :
    (reconstruct [("address", DVal.dObj [("line1", "x")])]).1
      = (reconstruct [("address." ++ "line1", DVal.dStr "x")]).1 ∧
    reconstruct [("address", DVal.dObj [("line1", "x")])]
      = (⟨none, none, none, some [("line1", "x")]⟩, true) ∧
    reconstruct [("address." ++ "line1", DVal.dStr "x")]
      = (⟨none, none, none, some [("line1", "x")]⟩, false) ∧
    createUpdateFull [("address", DVal.dObj [("line1", "x")])]
      = ([("address", WVal.wObj (anonymizeAddr [("line1", "x")]))], true) ∧
    createUpdateFull [("address." ++ "line1", DVal.dStr "x")]
      = ((anonymizeAddr [("line1", "x")]).map (fun p => ("address." ++ p.1, WVal.wStr p.2)),
         false) :=
  c4_reconstruction_amended "line1" "x" (by decide)

/-- C7 witness: the email `jane@example.com`. -/
theorem c7_email_domain_witness :
    (anonymizeCustomer ⟨none, none, some ("jane" ++ "@" ++ "example.com"), none⟩).1.email
      = some (hashToken "jane" ++ "@" ++ "example.com") ∧
    (jsSplit '@' (hashToken "jane" ++ "@" ++ "example.com")).get? 1 = some "example.com" :=
  c7_email_domain ⟨none, none, some ("jane" ++ "@" ++ "example.com"), none⟩ "jane" "example.com"
    (by decide) (by decide) rfl

/-- C10 witness: the at-less email `bob`. -/
theorem c10_undefined_domain_witness :
    (anonymizeCustomer ⟨none, none, some "bob", none⟩).1.email
      = some (hashToken "bob" ++ "@undefined") :=
  c10_undefined_domain ⟨none, none, some "bob", none⟩ "bob" (by decide) (by decide) rfl
